import Mathlib

/-!
Verification of the RemoteControl repository.

The frontend components (RemoteControl in main.jsx, LayoutEditor.jsx,
JoinScreen.jsx) are embedded directly from the JavaScript source.  The
backend engine (virtual key multiplexer and session manager) is not present
in the source tree, so those parts are modelled from the specification text
and marked as such in their doc comments.
-/

/-! ## Virtual Key Multiplexer (backend) -/

/-- Device capability calls, in the order they are issued. -/
inductive DevCall where
  | down (k : String)
  | up (k : String)
deriving DecidableEq

/-- Modelled from the spec: the process-wide virtual key state of section 4.2
(the backend source is absent from the tree).  It maps each key identifier to
a reference count, together with the trace of device capability calls issued
so far (newest last). -/
structure MuxState where
  counts : String → Nat
  devTrace : List DevCall

/-- Modelled from the spec: press increments the reference count of the key
and issues a device down call exactly when the count transitions from 0 to
1. -/
def press (m : MuxState) (k : String) : MuxState :=
  let c := m.counts k
  { counts := fun x => if x = k then c + 1 else m.counts x,
    devTrace := if c = 0 then m.devTrace ++ [DevCall.down k] else m.devTrace }

/-- Modelled from the spec: release decrements the reference count floored at
0 (a release at count 0 is a no-op) and issues a device up call exactly when
the count transitions to 0. -/
def release (m : MuxState) (k : String) : MuxState :=
  let c := m.counts k
  if c = 0 then m
  else
    { counts := fun x => if x = k then c - 1 else m.counts x,
      devTrace := if c = 1 then m.devTrace ++ [DevCall.up k] else m.devTrace }

/-- Modelled from the spec: forceReleaseAll performs exactly one release per
key identifier in the given collection, in order. -/
def forceReleaseAll (m : MuxState) (ks : List String) : MuxState :=
  ks.foldl release m

/-- Modelled from the spec: the Closing state of the session machine calls
forceReleaseAll with the held-keys set of the session and then clears the
set. -/
def closingCleanup (m : MuxState) (held : List String) : MuxState × List String :=
  (forceReleaseAll m held, [])

/-- Number of sessions whose held-keys set contains the key. -/
def countHolders (k : String) (sessions : List (List String)) : Nat :=
  sessions.countP (fun held => held.contains k)

/-- A multiplexer state with every count zero and an empty device trace. -/
def mux0 : MuxState := { counts := fun _ => 0, devTrace := [] }

/-! ## Layout items (frontend data model) -/

/-- A layout item as produced by onAddItem in LayoutEditor.jsx: an id, a
position, an icon string and a keybind table mapping player tokens to key
identifiers.  The JavaScript keybinds object is embedded as a lookup
function. -/
structure Item where
  i : String
  x : Int
  y : Int
  icon : String
  keybinds : String → Option String

/-- The value passed to handleItemPropertyChange: either an icon string or a
whole keybinds object. -/
inductive PropVal where
  | icon (s : String)
  | keybinds (kb : String → Option String)

/-- The object spread in handleItemPropertyChange: set one property of the
item, leaving the rest untouched. -/
def setProp (item : Item) : PropVal → Item
  | PropVal.icon s => { item with icon := s }
  | PropVal.keybinds kb => { item with keybinds := kb }

/-- The comparison item.i === selectedItem of LayoutEditor.jsx, where the
selection may be null. -/
def selectedMatches (selected : Option String) (item : Item) : Bool :=
  match selected with
  | some sid => item.i == sid
  | none => false

/-- handleItemPropertyChange of LayoutEditor.jsx: map over the items,
replacing the given property on every item whose id equals the selected
id. -/
def handleItemPropertyChange (items : List Item) (selected : Option String)
    (v : PropVal) : List Item :=
  items.map (fun item => if selectedMatches selected item then setProp item v else item)

/-! ## Layout editor state machine -/

/-- The pieces of LayoutEditor.jsx component state that the verified claims
concern. -/
structure EditorState where
  items : List Item
  selectedItem : Option String
  layoutName : String
  isBindingKey : Bool
  isSettingLabel : Bool
  bindingPlayer : String

/-- The initial useState values of LayoutEditor.jsx. -/
def initEditor : EditorState :=
  { items := [], selectedItem := none, layoutName := "",
    isBindingKey := false, isSettingLabel := false, bindingPlayer := "default" }

/-- selectedItemData of LayoutEditor.jsx: items.find on the selected id. -/
def selectedItemData (s : EditorState) : Option Item :=
  match s.selectedItem with
  | some sid => s.items.find? (fun it => it.i == sid)
  | none => none

/-- keyToIconMap of LayoutEditor.jsx. -/
def keyToIconMap : List (String × String) :=
  [("ArrowUp", "↑"), ("ArrowDown", "↓"), ("ArrowLeft", "←"), ("ArrowRight", "→"),
   ("Enter", "⏎"), (" ", "␣"), ("Shift", "⇧"), ("Control", "⌃"), ("Alt", "⌥"),
   ("Meta", "⌘"), ("Escape", "⎋"), ("Backspace", "⌫"), ("Tab", "⇥"),
   ("CapsLock", "⇪")]

/-- The expression keyToIconMap[event.key] || event.key. -/
def iconForKey (k : String) : String :=
  match (keyToIconMap.find? (fun e => e.1 == k)).map (fun e => e.2) with
  | some s => if s == "" then k else s
  | none => k

/-- The five player tokens for which keybind buttons are rendered. -/
def playerTokens : List String :=
  ["default", "player1", "player2", "player3", "player4"]

/-- A fresh item as built by onAddItem (uuid abstracted as the given id). -/
def newItem (newId : String) : Item :=
  { i := newId, x := 0, y := 0, icon := "",
    keybinds := fun t => if t == "default" then some "" else none }

/-- handleKeyDown of LayoutEditor.jsx.  In the keybind branch the new
keybinds object is the spread of the keybinds of selectedItemData with the
binding player remapped; when selectedItemData is undefined that spread
throws before any state setter runs, so the state is left unchanged. -/
def handleKeyDown (s : EditorState) (key : String) : EditorState :=
  if s.isBindingKey && s.selectedItem.isSome then
    match selectedItemData s with
    | some it =>
      let nkb : String → Option String :=
        fun t => if t == s.bindingPlayer then some key else it.keybinds t
      { s with
        items := handleItemPropertyChange s.items s.selectedItem (PropVal.keybinds nkb),
        isBindingKey := false, isSettingLabel := true }
    | none => s
  else if s.isSettingLabel && s.selectedItem.isSome then
    { s with
      items := handleItemPropertyChange s.items s.selectedItem
        (PropVal.icon (iconForKey key)),
      isSettingLabel := false }
  else s

/-- Whether the keydown handler calls event.preventDefault, so the key press
is not delivered to the page: true exactly when one of the two capture
branches of handleKeyDown runs. -/
def keyDownIntercepted (s : EditorState) : Bool :=
  (s.isBindingKey && s.selectedItem.isSome) ||
    (!(s.isBindingKey && s.selectedItem.isSome) &&
      (s.isSettingLabel && s.selectedItem.isSome))

/-- The user interactions of LayoutEditor.jsx that mutate the embedded state:
clicking Add Button, the remove cross of an item, an item on the canvas, the
Set Label button, a Set keybind button, pressing a key, a successful layout
load, a successful confirmed delete of the current layout, typing in the
layout name input, and dragging an item. -/
inductive EditorEvent where
  | addItem (newId : String)
  | removeItem (i : String)
  | itemClick (i : String)
  | clickSetLabel
  | clickSetKeybind (player : String)
  | keyDown (key : String)
  | loadLayout (name : String) (newItems : List Item)
  | deleteDone
  | nameInput (s : String)
  | dragMove (i : String) (nx ny : Int)

/-- One step of the editor.  Events whose originating UI element is not
rendered (or is disabled) in the given state cannot fire and are embedded as
no-ops: an item can only be clicked or removed if rendered, the Set Label
and Set keybind buttons exist only while selectedItemData is defined, and
the delete button exists only for a non-empty layout name and is disabled
for the name Arrows. -/
def step (s : EditorState) : EditorEvent → EditorState
  | EditorEvent.addItem newId => { s with items := s.items ++ [newItem newId] }
  | EditorEvent.removeItem i =>
      { s with
        items := s.items.filter (fun it => !(it.i == i)),
        selectedItem :=
          match s.selectedItem with
          | some sid => if sid == i then none else some sid
          | none => none }
  | EditorEvent.itemClick i =>
      if s.items.any (fun it => it.i == i) then
        { s with selectedItem := some i, isBindingKey := false,
                 isSettingLabel := false, bindingPlayer := "default" }
      else s
  | EditorEvent.clickSetLabel =>
      if (selectedItemData s).isSome then { s with isSettingLabel := true } else s
  | EditorEvent.clickSetKeybind p =>
      if (selectedItemData s).isSome && playerTokens.contains p then
        { s with bindingPlayer := p, isBindingKey := true }
      else s
  | EditorEvent.keyDown k => handleKeyDown s k
  | EditorEvent.loadLayout name newItems =>
      { s with items := newItems, layoutName := name }
  | EditorEvent.deleteDone =>
      if !(s.layoutName == "") && !(s.layoutName == "Arrows") then
        { s with layoutName := "", items := [] }
      else s
  | EditorEvent.nameInput t => { s with layoutName := t }
  | EditorEvent.dragMove i nx ny =>
      { s with items := s.items.map (fun it => if it.i == i then { it with x := nx, y := ny } else it) }

/-- Run the editor from its initial state over a list of interactions. -/
def runEditor (evts : List EditorEvent) : EditorState :=
  evts.foldl step initEditor

/-- Fold a per-step side condition over a run. -/
def runOk (ok : EditorState → EditorEvent → Bool) :
    EditorState → List EditorEvent → Bool
  | _, [] => true
  | s, e :: es => ok s e && runOk ok (step s e) es

/-! ## Remote control client (main.jsx) -/

/-- WebSocket readyState values. -/
inductive WsReady where
  | CONNECTING
  | OPEN
  | CLOSING
  | CLOSED
deriving DecidableEq

/-- The JSON object sent by the remote client: JSON.stringify of an object
with exactly the fields itemId and action. -/
structure WsMessage where
  itemId : String
  action : String
deriving DecidableEq

/-- A touch/mouse press or release on the button of the given item, the only
two event kinds wired to the remote buttons. -/
inductive RemoteEvent where
  | press (itemId : String)
  | release (itemId : String)

/-- handleButtonPress of main.jsx: send a down message when the connection
exists and is OPEN, otherwise send nothing. -/
def handleButtonPress (ws : Option WsReady) (itemId : String) : Option WsMessage :=
  match ws with
  | some rs =>
      if rs = WsReady.OPEN then some { itemId := itemId, action := "down" } else none
  | none => none

/-- handleButtonRelease of main.jsx: send an up message when the connection
exists and is OPEN, otherwise send nothing. -/
def handleButtonRelease (ws : Option WsReady) (itemId : String) : Option WsMessage :=
  match ws with
  | some rs =>
      if rs = WsReady.OPEN then some { itemId := itemId, action := "up" } else none
  | none => none

/-- All sends of the RemoteControl component: ws.current.send occurs only in
handleButtonPress and handleButtonRelease. -/
def remoteSend (ws : Option WsReady) : RemoteEvent → Option WsMessage
  | RemoteEvent.press itemId => handleButtonPress ws itemId
  | RemoteEvent.release itemId => handleButtonRelease ws itemId

/-! ## URL encoding and query strings (JoinScreen.jsx and main.jsx) -/

/-- Whether encodeURIComponent leaves the character unchanged: letters,
digits, and the marks - _ . ! ~ * apostrophe ( ). -/
def isUnreservedChar (c : Char) : Bool :=
  let n := c.toNat
  (65 ≤ n && n ≤ 90) || (97 ≤ n && n ≤ 122) || (48 ≤ n && n ≤ 57) ||
    n = 45 || n = 95 || n = 46 || n = 33 || n = 126 || n = 42 || n = 39 ||
    n = 40 || n = 41

/-- Uppercase hexadecimal digit for a value below 16. -/
def hexDigitChar (n : Nat) : Char :=
  Char.ofNat (if n < 10 then 48 + n else 55 + n)

/-- UTF-8 bytes of a code point, as natural numbers. -/
def utf8Bytes (n : Nat) : List Nat :=
  if n < 128 then [n]
  else if n < 2048 then [192 + n / 64, 128 + n % 64]
  else if n < 65536 then [224 + n / 4096, 128 + n / 64 % 64, 128 + n % 64]
  else [240 + n / 262144, 128 + n / 4096 % 64, 128 + n / 64 % 64, 128 + n % 64]

/-- Percent-encoding of one character under encodeURIComponent. -/
def encodeChar (c : Char) : List Char :=
  if isUnreservedChar c then [c]
  else (utf8Bytes c.toNat).foldr
    (fun b acc => Char.ofNat 37 :: hexDigitChar (b / 16) :: hexDigitChar (b % 16) :: acc) []

/-- The JavaScript encodeURIComponent builtin, used by JoinScreen.jsx when it
builds the join links. -/
def encodeURIComponent (s : String) : String :=
  String.mk (s.toList.foldr (fun c acc => encodeChar c ++ acc) [])

/-- Value of a hexadecimal digit character, if it is one. -/
def hexVal (c : Char) : Option Nat :=
  let n := c.toNat
  if 48 ≤ n && n ≤ 57 then some (n - 48)
  else if 65 ≤ n && n ≤ 70 then some (n - 55)
  else if 97 ≤ n && n ≤ 102 then some (n - 87)
  else none

/-- Decoding of a single non-escape character: a plus sign becomes a space,
anything else stays. -/
def decodeOne (c : Char) : Char :=
  if c.toNat = 43 then Char.ofNat 32 else c

/-- Worker for percent-decoding, structurally recursive on a fuel argument
that bounds the number of characters still to be consumed. -/
def decodeCharsGo : Nat → List Char → List Char
  | _, [] => []
  | 0, l => l
  | fuel + 1, c :: rest =>
      if c.toNat = 37 then
        match rest with
        | h1 :: h2 :: rest2 =>
            match hexVal h1, hexVal h2 with
            | some v1, some v2 => Char.ofNat (v1 * 16 + v2) :: decodeCharsGo fuel rest2
            | _, _ => decodeOne c :: decodeCharsGo fuel rest
        | _ => decodeOne c :: decodeCharsGo fuel rest
      else decodeOne c :: decodeCharsGo fuel rest

/-- Percent-decoding as done by URLSearchParams and by the server for query
components: a percent sign followed by two hex digits becomes the byte with
that value, and a plus sign becomes a space.  Decoded bytes are kept as
single characters, which is faithful for the ASCII inputs used here.  One
unit of fuel per character is enough because every step consumes at least
one character. -/
def decodeChars (l : List Char) : List Char :=
  decodeCharsGo l.length l

/-- Split a query string at ampersands. -/
def splitAmp : List Char → List (List Char)
  | [] => [[]]
  | c :: rest =>
      let r := splitAmp rest
      if c.toNat = 38 then [] :: r
      else
        match r with
        | [] => [[c]]
        | h :: t => (c :: h) :: t

/-- Split one key=value component at the first equals sign; a component with
no equals sign has the empty value. -/
def splitEq : List Char → List Char × List Char
  | [] => ([], [])
  | c :: rest =>
      if c.toNat = 61 then ([], rest)
      else
        let kv := splitEq rest
        (c :: kv.1, kv.2)

/-- The decoded key/value pairs of a query string, in order. -/
def queryPairs (q : String) : List (String × String) :=
  (splitAmp q.toList).map
    (fun part =>
      let kv := splitEq part
      (String.mk (decodeChars kv.1), String.mk (decodeChars kv.2)))

/-- Lookup of the first value bound to a key in a query string, as done by
URLSearchParams.get on the page and by the query parser on the server. -/
def getParam (q : String) (key : String) : Option String :=
  ((queryPairs q).find? (fun kv => kv.1 == key)).map (fun kv => kv.2)

/-- The query part of the join link built by JoinScreen.jsx:
layout=encodeURIComponent(selectedLayout). -/
def joinLinkQuery (selectedLayout : String) : String :=
  "layout=" ++ encodeURIComponent selectedLayout

/-- searchParams.get of the remote page in main.jsx, applied to the query of
the join link the page was opened with. -/
def pageLayoutName (q : String) : Option String :=
  getParam q "layout"

/-- The query part of the WebSocket URL built by main.jsx: the decoded layout
name is interpolated verbatim, with no re-encoding. -/
def wsQuery (layoutName : String) : String :=
  "layout=" ++ layoutName

/-- The WebSocket URL template of main.jsx. -/
def wsUrl (hostname : String) (playerId : Nat) (layoutName : String) : String :=
  "ws://" ++ hostname ++ ":8000/ws/" ++ toString playerId ++ "?" ++ wsQuery layoutName

/-- Modelled from the spec: the backend (absent from the tree) URL-decodes
the layout query parameter of the WebSocket connection address. -/
def serverLayoutName (q : String) : Option String :=
  getParam q "layout"

/-- The layout name as it reaches the server for a given selected layout
name: through the join link query, the page parameter, and the WebSocket
query. -/
def layoutNameAtServer (selectedLayout : String) : Option String :=
  match pageLayoutName (joinLinkQuery selectedLayout) with
  | some layoutName => serverLayoutName (wsQuery layoutName)
  | none => none

/-! ## Button content rendering -/

/-- The button-content expression of RemoteControl in main.jsx:
item.icon ? item.icon : (item.keybinds?.default || N/A). -/
def remoteButtonContent (item : Item) : String :=
  if item.icon != "" then item.icon
  else
    match item.keybinds "default" with
    | some k => if k != "" then k else "N/A"
    | none => "N/A"

/-- The button-content expression of the draggable item in LayoutEditor.jsx,
identical in form to the remote one. -/
def editorButtonContent (item : Item) : String :=
  if item.icon != "" then item.icon
  else
    match item.keybinds "default" with
    | some k => if k != "" then k else "N/A"
    | none => "N/A"

/-! ## Layout deletion (LayoutEditor.jsx) -/

/-- The Delete Current Layout button is rendered only when layoutName is
truthy. -/
def deleteButtonShown (layoutName : String) : Bool :=
  layoutName != ""

/-- The disabled attribute of the Delete Current Layout button. -/
def deleteButtonDisabled (layoutName : String) : Bool :=
  layoutName == "Arrows"

/-- deleteLayout of LayoutEditor.jsx: the DELETE request goes out only after
window.confirm returns true. -/
def deleteLayoutRequest (name : String) (confirmed : Bool) : Option String :=
  if confirmed then some name else none

/-- The only call site of deleteLayout: the button, which must be rendered
and enabled for the click to happen. -/
def editorDeleteRequest (layoutName : String) (confirmed : Bool) : Option String :=
  if deleteButtonShown layoutName && !deleteButtonDisabled layoutName then
    deleteLayoutRequest layoutName confirmed
  else none

/-! ## Concrete instances used by witnesses and counterexamples -/

/-- A multiplexer state whose counts agree with two sessions holding
keys a,b and b respectively. -/
def muxTwoSessions : MuxState :=
  { counts := fun k => countHolders k [["a", "b"], ["b"]], devTrace := [] }

/-- An item with id a at the origin. -/
def itDup1 : Item :=
  { i := "a", x := 0, y := 0, icon := "", keybinds := fun _ => none }

/-- A second, distinct item that shares the id a. -/
def itDup2 : Item :=
  { i := "a", x := 1, y := 1, icon := "", keybinds := fun _ => none }

/-- Interaction sequence reaching a state where both capture flags are
active: select an item, start a keybind capture, then click Set Label. -/
def bothFlagsEvts : List EditorEvent :=
  [EditorEvent.addItem "a", EditorEvent.itemClick "a",
   EditorEvent.clickSetKeybind "player1", EditorEvent.clickSetLabel]

/-- Interaction sequence reaching a keybind capture whose selected id is
absent from the item list: load a different layout while the capture is
pending. -/
def staleSelectionEvts : List EditorEvent :=
  [EditorEvent.addItem "a", EditorEvent.itemClick "a",
   EditorEvent.clickSetKeybind "player1",
   EditorEvent.loadLayout "B" [newItem "b"]]

/-- A disciplined interaction sequence used as a witness run. -/
def disciplinedEvts : List EditorEvent :=
  [EditorEvent.addItem "a", EditorEvent.itemClick "a",
   EditorEvent.clickSetKeybind "player1", EditorEvent.keyDown "w",
   EditorEvent.keyDown "x"]

/-- A capture state reached by selecting the only item and starting a
keybind capture for player1. -/
def captureState : EditorState :=
  runEditor [EditorEvent.addItem "a", EditorEvent.itemClick "a",
             EditorEvent.clickSetKeybind "player1"]

/-- Side condition for the corrected exclusivity claim: a capture button is
clicked only while the other capture is not pending. -/
def captureClickOk (s : EditorState) : EditorEvent → Bool
  | EditorEvent.clickSetLabel => !s.isBindingKey
  | EditorEvent.clickSetKeybind _ => !s.isSettingLabel
  | _ => true

/-- Side condition for the corrected selection claim: the item list is
replaced wholesale (layout load, delete of the current layout) only while no
capture is pending. -/
def replaceOk (s : EditorState) : EditorEvent → Bool
  | EditorEvent.loadLayout _ _ => !(s.isBindingKey || s.isSettingLabel)
  | EditorEvent.deleteDone => !(s.isBindingKey || s.isSettingLabel)
  | _ => true

/-- The selection invariant: while a capture is pending, a non-null selected
id names an item of the list. -/
def selInv (s : EditorState) : Bool :=
  if s.isBindingKey || s.isSettingLabel then
    match s.selectedItem with
    | some sid => s.items.any (fun it => it.i == sid)
    | none => true
  else true

/-! ## Helper lemmas -/

theorem contains_iff_mem (l : List String) (k : String) :
    l.contains k = true ↔ k ∈ l :=
  List.elem_iff

theorem release_counts_of_pos (m : MuxState) (k : String) (h : 1 ≤ m.counts k) :
    ∀ x, (release m k).counts x = if x = k then m.counts k - 1 else m.counts x := by
  intro x
  have hne : ¬ m.counts k = 0 := by omega
  simp [release, hne]

theorem forceReleaseAll_counts (ks : List String) :
    ∀ m : MuxState, ks.Nodup → (∀ k ∈ ks, 1 ≤ m.counts k) →
      ∀ x, (forceReleaseAll m ks).counts x =
        m.counts x - (if x ∈ ks then 1 else 0) := by
  induction ks with
  | nil => intro m _ _ x; simp [forceReleaseAll]
  | cons k0 rest ih =>
      intro m hnd hpos x
      have hpos0 : 1 ≤ m.counts k0 := hpos k0 (by simp)
      have hstep := release_counts_of_pos m k0 hpos0
      have hk0 : k0 ∉ rest := (List.nodup_cons.mp hnd).1
      have hnd2 : rest.Nodup := (List.nodup_cons.mp hnd).2
      have hpos2 : ∀ k ∈ rest, 1 ≤ (release m k0).counts k := by
        intro k hk
        rw [hstep k]
        have hne : ¬ k = k0 := fun he => hk0 (he ▸ hk)
        simp only [hne, if_false]
        exact hpos k (List.mem_cons_of_mem _ hk)
      have hfold : forceReleaseAll m (k0 :: rest) = forceReleaseAll (release m k0) rest := rfl
      rw [hfold, ih (release m k0) hnd2 hpos2 x, hstep x]
      by_cases hx : x = k0
      · subst hx
        simp [hk0]
      · simp [hx, List.mem_cons]

/-! ## Claim theorems -/

/-- C1: for every multiplexer state (hence along every sequence of
interleaved press/release calls) and every key, press increments the
reference count of the key and appends a device down call exactly when the
count transitions from 0 to 1; release decrements the count floored at 0, is
a complete no-op at count 0, and appends a device up call exactly when the
count transitions to exactly 0; the device trace equations show that no
other device call is made by either operation; counts of other keys are
untouched. -/
theorem mux_press_release_spec (m : MuxState) (k : String) :
    (press m k).counts k = m.counts k + 1 ∧
    (press m k).devTrace =
      m.devTrace ++ (if m.counts k = 0 then [DevCall.down k] else []) ∧
    (release m k).counts k = m.counts k - 1 ∧
    (m.counts k = 0 → release m k = m) ∧
    (release m k).devTrace =
      m.devTrace ++ (if m.counts k = 1 then [DevCall.up k] else []) ∧
    (∀ k2, k2 ≠ k →
      (press m k).counts k2 = m.counts k2 ∧ (release m k).counts k2 = m.counts k2) := by
  refine ⟨by simp [press], ?_, ?_, ?_, ?_, ?_⟩
  · by_cases h : m.counts k = 0 <;> simp [press, h]
  · by_cases h : m.counts k = 0
    · simp [release, h]
    · simp [release, h]
  · intro h0
    simp [release, h0]
  · by_cases h : m.counts k = 0
    · have h1 : ¬ m.counts k = 1 := by omega
      simp [release, h, h1]
    · by_cases h1 : m.counts k = 1 <;> simp [release, h, h1]
  · intro k2 hne
    have hne2 : ¬ k2 = k := hne
    by_cases h : m.counts k = 0 <;> simp [press, release, h, hne2]

/-- C1 witness: the theorem applied at the zero-count state and key a, with
the count-0 hypothesis of the no-op conjunct discharged by rfl. -/
theorem mux_press_release_spec_witness :
    release mux0 "a" = mux0 ∧ (press mux0 "a").counts "a" = 1 := by
  refine ⟨(mux_press_release_spec mux0 "a").2.2.2.1 rfl, ?_⟩
  have h := (mux_press_release_spec mux0 "a").1
  simpa using h

/-- C2: for a session that holds the (duplicate-free) set held of keys at
disconnect, while the remaining sessions hold the sets in others, and the
multiplexer counts agree with the number of holders of each key, the Closing
cleanup applies exactly one compensating release to each held key (each held
count drops by exactly one, all other counts are untouched), the counts
afterwards agree with the remaining sessions alone, a held key with no other
holder reaches count 0, a key still held by another session keeps a positive
count, and the held-keys set is cleared. -/
theorem session_cleanup_spec (m : MuxState) (held : List String)
    (others : List (List String)) (hnd : held.Nodup)
    (hinv : ∀ k, m.counts k = countHolders k (held :: others)) :
    (∀ k ∈ held, (forceReleaseAll m held).counts k = m.counts k - 1) ∧
    (∀ k, k ∉ held → (forceReleaseAll m held).counts k = m.counts k) ∧
    (∀ k, (forceReleaseAll m held).counts k = countHolders k others) ∧
    (∀ k ∈ held, countHolders k others = 0 → (forceReleaseAll m held).counts k = 0) ∧
    (∀ k o, o ∈ others → k ∈ o → 1 ≤ (forceReleaseAll m held).counts k) ∧
    (closingCleanup m held).1 = forceReleaseAll m held ∧
    (closingCleanup m held).2 = [] := by
  have hsplit : ∀ k, countHolders k (held :: others) =
      countHolders k others + (if k ∈ held then 1 else 0) := by
    intro k
    unfold countHolders
    rw [List.countP_cons]
    by_cases hk : k ∈ held
    · simp [hk, (contains_iff_mem held k).mpr hk]
    · have hc : ¬ held.contains k = true := fun hc => hk ((contains_iff_mem held k).mp hc)
      simp [hk, hc]
  have hpos : ∀ k ∈ held, 1 ≤ m.counts k := by
    intro k hk
    rw [hinv k, hsplit k]
    simp [hk]
  have hmain := forceReleaseAll_counts held m hnd hpos
  refine ⟨?_, ?_, ?_, ?_, ?_, rfl, rfl⟩
  · intro k hk
    rw [hmain k]
    simp [hk]
  · intro k hk
    rw [hmain k]
    simp [hk]
  · intro k
    rw [hmain k, hinv k, hsplit k]
    by_cases hk : k ∈ held <;> simp [hk]
  · intro k hk hz
    rw [hmain k, hinv k, hsplit k, hz]
    simp [hk]
  · intro k o ho hko
    have h1 : 1 ≤ countHolders k others := by
      unfold countHolders
      rw [Nat.succ_le, List.countP_pos_iff]
      exact ⟨o, ho, (contains_iff_mem o k).mpr hko⟩
    rw [hmain k, hinv k, hsplit k]
    by_cases hk : k ∈ held <;> simp [hk] <;> omega

/-- C2 witness: two sessions, the first holding keys a and b, the second
holding b; after the cleanup of the first session, key a is fully released
and key b keeps the count contributed by the second session. -/
theorem session_cleanup_spec_witness :
    (forceReleaseAll muxTwoSessions ["a", "b"]).counts "a" = 0 ∧
    (forceReleaseAll muxTwoSessions ["a", "b"]).counts "b" = 1 := by
  have h := session_cleanup_spec muxTwoSessions ["a", "b"] [["b"]]
    (by decide) (fun k => rfl)
  constructor
  · rw [h.2.2.1 "a"]; decide
  · rw [h.2.2.1 "b"]; decide

theorem setProp_i (it : Item) (v : PropVal) : (setProp it v).i = it.i := by
  cases v <;> rfl

theorem find?_hipc (items : List Item) (sid : String) (v : PropVal) :
    ∀ it, items.find? (fun x => x.i == sid) = some it →
      (handleItemPropertyChange items (some sid) v).find? (fun x => x.i == sid)
        = some (setProp it v) := by
  induction items with
  | nil => intro it h; simp [List.find?] at h
  | cons a l ih =>
      intro it h
      cases hc : (a.i == sid) with
      | true =>
          simp only [List.find?_cons, hc] at h
          injection h with h
          subst h
          unfold handleItemPropertyChange
          rw [List.map_cons]
          have hsm : selectedMatches (some sid) a = true := hc
          rw [if_pos hsm]
          have hps : ((setProp a v).i == sid) = true := by rw [setProp_i]; exact hc
          simp only [List.find?_cons, hps]
      | false =>
          simp only [List.find?_cons, hc] at h
          unfold handleItemPropertyChange at ih ⊢
          rw [List.map_cons]
          have hsm : ¬ selectedMatches (some sid) a = true := by
            simp [selectedMatches, hc]
          rw [if_neg hsm]
          simp only [List.find?_cons, hc]
          exact ih it h

theorem any_id_map (items : List Item) (sid : String) (f : Item → Item)
    (hf : ∀ x, (f x).i = x.i) :
    (items.map f).any (fun it => it.i == sid) = items.any (fun it => it.i == sid) := by
  rw [List.any_map]
  congr 1
  funext x
  simp [Function.comp, hf]

theorem hipc_preserves_i (selected : Option String) (v : PropVal) :
    ∀ x, ((fun item => if selectedMatches selected item then setProp item v else item) x).i
      = x.i := by
  intro x
  by_cases h : selectedMatches selected x = true
  · simp [h, setProp_i]
  · simp [h]

/-- C3: in a keybind capture with a selected item present in the list, the
next keydown is intercepted (preventDefault), the pressed key is stored as
the keybind of the selected item for the pending player token, and the
machine advances to the label capture; in a label capture with a selected
item present, the next keydown is intercepted, its icon-mapped value is
stored as the icon of the selected item, and the machine returns to idle. -/
theorem capture_keydown_spec (s : EditorState) (key sid : String) (it : Item) :
    (s.isBindingKey = true → s.selectedItem = some sid →
      s.items.find? (fun x => x.i == sid) = some it →
        keyDownIntercepted s = true ∧
        ((handleKeyDown s key).items.find? (fun x => x.i == sid)).map
            (fun x => x.keybinds s.bindingPlayer) = some (some key) ∧
        (handleKeyDown s key).isBindingKey = false ∧
        (handleKeyDown s key).isSettingLabel = true) ∧
    (s.isBindingKey = false → s.isSettingLabel = true → s.selectedItem = some sid →
      s.items.find? (fun x => x.i == sid) = some it →
        keyDownIntercepted s = true ∧
        ((handleKeyDown s key).items.find? (fun x => x.i == sid)).map
            (fun x => x.icon) = some (iconForKey key) ∧
        (handleKeyDown s key).isBindingKey = false ∧
        (handleKeyDown s key).isSettingLabel = false) := by
  constructor
  · intro hb hsel hfind
    have hdata : selectedItemData s = some it := by
      simp [selectedItemData, hsel, hfind]
    have hcond : (s.isBindingKey && s.selectedItem.isSome) = true := by
      simp [hb, hsel]
    have hkd : handleKeyDown s key =
        { s with
          items := handleItemPropertyChange s.items s.selectedItem
            (PropVal.keybinds
              (fun t => if t == s.bindingPlayer then some key else it.keybinds t)),
          isBindingKey := false, isSettingLabel := true } := by
      unfold handleKeyDown
      rw [hcond, hdata]
      simp
    refine ⟨by simp [keyDownIntercepted, hcond], ?_, by rw [hkd], by rw [hkd]⟩
    rw [hkd]
    simp only [hsel]
    rw [find?_hipc s.items sid _ it hfind]
    simp [setProp]
  · intro hb hl hsel hfind
    have hcond1 : (s.isBindingKey && s.selectedItem.isSome) = false := by
      simp [hb]
    have hcond2 : (s.isSettingLabel && s.selectedItem.isSome) = true := by
      simp [hl, hsel]
    have hkd : handleKeyDown s key =
        { s with
          items := handleItemPropertyChange s.items s.selectedItem
            (PropVal.icon (iconForKey key)),
          isSettingLabel := false } := by
      unfold handleKeyDown
      rw [hcond1, hcond2]
      simp
    refine ⟨by simp [keyDownIntercepted, hcond1, hcond2], ?_, by rw [hkd]; exact hb, by rw [hkd]⟩
    rw [hkd]
    simp only [hsel]
    rw [find?_hipc s.items sid _ it hfind]
    simp [setProp]

/-- C3 witness: the theorem applied to the concrete capture state reached by
adding item a, selecting it and starting a player1 keybind capture, with the
key w pressed. -/
theorem capture_keydown_spec_witness :
    keyDownIntercepted captureState = true ∧
    ((handleKeyDown captureState "w").items.find? (fun x => x.i == "a")).map
        (fun x => x.keybinds captureState.bindingPlayer) = some (some "w") := by
  have h := (capture_keydown_spec captureState "w" "a" (newItem "a")).1 rfl rfl rfl
  exact ⟨h.1, h.2.1⟩

theorem step_flags_exclusive (s : EditorState) (e : EditorEvent)
    (hok : captureClickOk s e = true)
    (hinv : (s.isBindingKey && s.isSettingLabel) = false) :
    ((step s e).isBindingKey && (step s e).isSettingLabel) = false := by
  cases e with
  | addItem nid => simpa [step] using hinv
  | removeItem i => simpa [step] using hinv
  | itemClick i =>
      simp only [step]
      split
      · simp
      · exact hinv
  | clickSetLabel =>
      have hb : s.isBindingKey = false := by simpa [captureClickOk] using hok
      simp only [step]
      split
      · simp [hb]
      · exact hinv
  | clickSetKeybind p =>
      have hl : s.isSettingLabel = false := by simpa [captureClickOk] using hok
      simp only [step]
      split
      · simp [hl]
      · exact hinv
  | keyDown k =>
      simp only [step, handleKeyDown]
      split
      · cases hd : selectedItemData s with
        | some it => simp [hd]
        | none => simpa [hd] using hinv
      · split
        · simp
        · exact hinv
  | loadLayout name newItems => simpa [step] using hinv
  | deleteDone =>
      simp only [step]
      split
      · simpa using hinv
      · exact hinv
  | nameInput t => simpa [step] using hinv
  | dragMove i nx ny => simpa [step] using hinv

theorem runOk_flags (evts : List EditorEvent) :
    ∀ s : EditorState, (s.isBindingKey && s.isSettingLabel) = false →
      runOk captureClickOk s evts = true →
      ((evts.foldl step s).isBindingKey && (evts.foldl step s).isSettingLabel) = false := by
  induction evts with
  | nil => intro s h _; simpa using h
  | cons e es ih =>
      intro s h hok
      rw [List.foldl_cons]
      rw [show runOk captureClickOk s (e :: es) =
        (captureClickOk s e && runOk captureClickOk (step s e) es) from rfl,
        Bool.and_eq_true] at hok
      exact ih (step s e) (step_flags_exclusive s e hok.1 h) hok.2

/-- C4 counterexample: the interaction sequence add item, select it, click
Set player1 Keybind, click Set Label reaches a state in which the
AwaitingKeybind and AwaitingLabel flags are both active, refuting the claim
that they are never both active in any reachable state. -/
theorem editor_capture_flags_both_active :
    ((runEditor bothFlagsEvts).isBindingKey &&
      (runEditor bothFlagsEvts).isSettingLabel) = true := by decide

/-- C4 (amended): in every run in which Set Label is never clicked while a
keybind capture is pending and Set keybind is never clicked while a label
capture is pending, the two capture flags are never both active. -/
theorem editor_capture_flags_exclusive (evts : List EditorEvent)
    (h : runOk captureClickOk initEditor evts = true) :
    ((runEditor evts).isBindingKey && (runEditor evts).isSettingLabel) = false :=
  runOk_flags evts initEditor rfl h

/-- C4 witness: the amended theorem applied to a concrete disciplined run. -/
theorem editor_capture_flags_exclusive_witness :
    runOk captureClickOk initEditor disciplinedEvts = true ∧
    ((runEditor disciplinedEvts).isBindingKey &&
      (runEditor disciplinedEvts).isSettingLabel) = false :=
  ⟨by decide, editor_capture_flags_exclusive disciplinedEvts (by decide)⟩

theorem selInv_eq_true_iff (s : EditorState) :
    selInv s = true ↔
      ∀ sid, (s.isBindingKey || s.isSettingLabel) = true →
        s.selectedItem = some sid → s.items.any (fun it => it.i == sid) = true := by
  unfold selInv
  cases hf : (s.isBindingKey || s.isSettingLabel) with
  | false => simp [hf]
  | true =>
      cases hsel : s.selectedItem with
      | none => simp [hsel]
      | some sid => simp [hsel]

theorem step_selInv (s : EditorState) (e : EditorEvent)
    (hok : replaceOk s e = true) (hinv : selInv s = true) :
    selInv (step s e) = true := by
  rw [selInv_eq_true_iff] at hinv ⊢
  cases e with
  | addItem nid =>
      intro sid hfl hse
      simp only [step] at hfl hse ⊢
      rw [List.any_append, hinv sid hfl hse]
      simp
  | removeItem i =>
      intro sid hfl hse
      simp only [step] at hfl hse ⊢
      cases hs0 : s.selectedItem with
      | none => simp [hs0] at hse
      | some sid0 =>
          simp only [hs0] at hse
          cases hbe : (sid0 == i) with
          | true => simp [hbe] at hse
          | false =>
              simp only [hbe] at hse
              simp only [Bool.false_eq_true, if_false, Option.some.injEq] at hse
              subst hse
              have hany := hinv sid0 hfl hs0
              rw [List.any_eq_true] at hany ⊢
              obtain ⟨w, hw, hpw⟩ := hany
              refine ⟨w, List.mem_filter.mpr ⟨hw, ?_⟩, hpw⟩
              have hwi : w.i = sid0 := by
                have := hpw
                exact beq_iff_eq.mp this
              rw [hwi, hbe]
              rfl
  | itemClick i =>
      cases hc : s.items.any (fun it => it.i == i) with
      | true =>
          simp only [step, hc, if_true]
          intro sid hfl hse
          simp at hfl
      | false =>
          simp only [step, hc]
          simp only [Bool.false_eq_true, if_false]
          exact hinv
  | clickSetLabel =>
      cases hc : (selectedItemData s).isSome with
      | true =>
          simp only [step, hc, if_true]
          intro sid hfl hse
          simp only [selectedItemData, hse] at hc
          rw [List.find?_isSome] at hc
          obtain ⟨w, hw, hpw⟩ := hc
          exact List.any_eq_true.mpr ⟨w, hw, hpw⟩
      | false =>
          simp only [step, hc]
          simp only [Bool.false_eq_true, if_false]
          exact hinv
  | clickSetKeybind p =>
      cases hc : ((selectedItemData s).isSome && playerTokens.contains p) with
      | true =>
          simp only [step, hc, if_true]
          intro sid hfl hse
          rw [Bool.and_eq_true] at hc
          simp only [selectedItemData, hse] at hc
          have hc1 := hc.1
          rw [List.find?_isSome] at hc1
          obtain ⟨w, hw, hpw⟩ := hc1
          exact List.any_eq_true.mpr ⟨w, hw, hpw⟩
      | false =>
          simp only [step, hc]
          simp only [Bool.false_eq_true, if_false]
          exact hinv
  | keyDown k =>
      cases hc1 : (s.isBindingKey && s.selectedItem.isSome) with
      | true =>
          cases hd : selectedItemData s with
          | some it =>
              simp only [step, handleKeyDown, hc1, hd, if_true]
              intro sid hfl hse
              rw [hse]
              unfold handleItemPropertyChange
              rw [any_id_map s.items sid _ (hipc_preserves_i (some sid) _)]
              apply hinv sid ?_ hse
              rw [Bool.and_eq_true] at hc1
              simp [hc1.1]
          | none =>
              simp only [step, handleKeyDown, hc1, hd, if_true]
              exact hinv
      | false =>
          cases hc2 : (s.isSettingLabel && s.selectedItem.isSome) with
          | true =>
              simp only [step, handleKeyDown, hc1, hc2]
              simp only [Bool.false_eq_true, if_false, if_true]
              intro sid hfl hse
              rw [Bool.and_eq_true] at hc2
              simp only [Bool.or_false] at hfl
              simp [hfl, hc2.2] at hc1
          | false =>
              simp only [step, handleKeyDown, hc1, hc2]
              simp only [Bool.false_eq_true, if_false]
              exact hinv
  | loadLayout name newItems =>
      intro sid hfl hse
      simp only [step] at hfl hse ⊢
      simp only [replaceOk] at hok
      simp only [Bool.not_eq_true'] at hok
      rw [hok] at hfl
      exact absurd hfl (by simp)
  | deleteDone =>
      cases hc : (!(s.layoutName == "") && !(s.layoutName == "Arrows")) with
      | true =>
          simp only [step, hc, if_true]
          intro sid hfl hse
          simp only [replaceOk] at hok
          simp only [Bool.not_eq_true'] at hok
          rw [hok] at hfl
          exact absurd hfl (by simp)
      | false =>
          simp only [step, hc]
          simp only [Bool.false_eq_true, if_false]
          exact hinv
  | nameInput t =>
      intro sid hfl hse
      simp only [step] at hfl hse ⊢
      exact hinv sid hfl hse
  | dragMove i nx ny =>
      intro sid hfl hse
      simp only [step] at hfl hse ⊢
      rw [any_id_map s.items sid _ ?hpres]
      case hpres =>
        intro w
        by_cases hw : (w.i == i) = true
        · simp [hw]
        · simp [hw]
      exact hinv sid hfl hse

theorem runOk_selInv (evts : List EditorEvent) :
    ∀ s : EditorState, selInv s = true →
      runOk replaceOk s evts = true →
      selInv (evts.foldl step s) = true := by
  induction evts with
  | nil => intro s h _; simpa using h
  | cons e es ih =>
      intro s h hok
      rw [List.foldl_cons]
      rw [show runOk replaceOk s (e :: es) =
        (replaceOk s e && runOk replaceOk (step s e) es) from rfl,
        Bool.and_eq_true] at hok
      exact ih (step s e) (step_selInv s e hok.1 h) hok.2

/-- C8 counterexample: loading a different layout while a keybind capture is
pending reaches a state in which the machine is awaiting a keybind, the
selected item id is a, and no item of the current list has id a, so
selectedItemData is undefined; this refutes the claim that the selected id
always refers to a present item while a capture is pending. -/
theorem editor_capture_selected_missing :
    (runEditor staleSelectionEvts).isBindingKey = true ∧
    (runEditor staleSelectionEvts).selectedItem = some "a" ∧
    (runEditor staleSelectionEvts).items.all (fun it => !(it.i == "a")) = true ∧
    (selectedItemData (runEditor staleSelectionEvts)).isSome = false :=
  ⟨by decide, by decide, by decide, by decide⟩

/-- C8 (amended): in every run in which the item list is never replaced
wholesale (layout load, delete of the current layout) while a capture is
pending, whenever a capture is pending a non-null selected item id names an
item present in the list, so the keydown handler never dereferences a
missing item. -/
theorem editor_capture_selected_present (evts : List EditorEvent)
    (h : runOk replaceOk initEditor evts = true) :
    selInv (runEditor evts) = true :=
  runOk_selInv evts initEditor rfl h

/-- C8 witness: the amended theorem applied to a concrete run without list
replacement during capture. -/
theorem editor_capture_selected_present_witness :
    runOk replaceOk initEditor disciplinedEvts = true ∧
    selInv (runEditor disciplinedEvts) = true :=
  ⟨by decide, editor_capture_selected_present disciplinedEvts (by decide)⟩

/-- C9 counterexample: on an item list with two items sharing the selected
id, the property update modifies both of them, refuting the claim that at
most the single item with the selected id is modified on every item list. -/
theorem property_change_duplicate_ids :
    (handleItemPropertyChange [itDup1, itDup2] (some "a") (PropVal.icon "X"))[0]? ≠
      ([itDup1, itDup2] : List Item)[0]? ∧
    (handleItemPropertyChange [itDup1, itDup2] (some "a") (PropVal.icon "X"))[1]? ≠
      ([itDup1, itDup2] : List Item)[1]? := by
  have h0 : ((handleItemPropertyChange [itDup1, itDup2] (some "a")
      (PropVal.icon "X"))[0]?).map Item.icon ≠
      (([itDup1, itDup2] : List Item)[0]?).map Item.icon := by decide
  have h1 : ((handleItemPropertyChange [itDup1, itDup2] (some "a")
      (PropVal.icon "X"))[1]?).map Item.icon ≠
      (([itDup1, itDup2] : List Item)[1]?).map Item.icon := by decide
  exact ⟨fun h => h0 (congrArg (Option.map Item.icon) h),
         fun h => h1 (congrArg (Option.map Item.icon) h)⟩

/-- C9 (amended): the property update preserves the length and order of the
item list, updates exactly the positions whose item id equals the selected
id (at most one position when ids are unique), and leaves every item whose
id differs from the selected id unchanged. -/
theorem property_change_frame (items : List Item) (selected : Option String)
    (v : PropVal) :
    (handleItemPropertyChange items selected v).length = items.length ∧
    (∀ j : Nat, (handleItemPropertyChange items selected v)[j]? =
      (items[j]?).map
        (fun it => if selectedMatches selected it then setProp it v else it)) ∧
    (∀ j : Nat, ∀ it : Item, items[j]? = some it →
      selectedMatches selected it = false →
      (handleItemPropertyChange items selected v)[j]? = some it) := by
  refine ⟨List.length_map _ _, ?_, ?_⟩
  · intro j
    exact List.getElem?_map _ items j
  · intro j it hj hm
    unfold handleItemPropertyChange
    rw [List.getElem?_map _ items j, hj]
    simp [hm]

/-- C9 witness: the amended theorem applied at a singleton list whose item
does not match the selection, showing the item is left unchanged. -/
theorem property_change_frame_witness :
    (handleItemPropertyChange [itDup1] (some "z") (PropVal.icon "X"))[0]? =
      some itDup1 :=
  (property_change_frame [itDup1] (some "z") (PropVal.icon "X")).2.2 0 itDup1 rfl rfl

/-- C5: a message is produced only when the connection exists and its
readyState is OPEN, and it is exactly the object with itemId the touched
item and action down for a press and up for a release; remoteSend covers the
only two send call sites of the component, so no other message shape is ever
sent. -/
theorem remote_send_shape (ws : Option WsReady) (e : RemoteEvent) (m : WsMessage)
    (h : remoteSend ws e = some m) :
    ws = some WsReady.OPEN ∧
    (m.action = "down" ∨ m.action = "up") ∧
    (∀ idv, e = RemoteEvent.press idv → m = { itemId := idv, action := "down" }) ∧
    (∀ idv, e = RemoteEvent.release idv → m = { itemId := idv, action := "up" }) := by
  cases e with
  | press idv =>
      cases ws with
      | none => simp [remoteSend, handleButtonPress] at h
      | some rs =>
          simp only [remoteSend, handleButtonPress] at h
          split at h
          next hc =>
            subst hc
            injection h with h2
            refine ⟨rfl, Or.inl (by rw [← h2]), fun idv2 he => ?_, fun idv2 he => ?_⟩
            · injection he with he2
              subst he2
              exact h2.symm
            · exact RemoteEvent.noConfusion he
          next hc => simp at h
  | release idv =>
      cases ws with
      | none => simp [remoteSend, handleButtonRelease] at h
      | some rs =>
          simp only [remoteSend, handleButtonRelease] at h
          split at h
          next hc =>
            subst hc
            injection h with h2
            refine ⟨rfl, Or.inr (by rw [← h2]), fun idv2 he => ?_, fun idv2 he => ?_⟩
            · exact RemoteEvent.noConfusion he
            · injection he with he2
              subst he2
              exact h2.symm
          next hc => simp at h

/-- C5 witness: the theorem applied to an open connection and a press of
item b, with the send equation discharged by rfl. -/
theorem remote_send_shape_witness :
    ({ itemId := "b", action := "down" } : WsMessage).action = "down" ∨
    ({ itemId := "b", action := "down" } : WsMessage).action = "up" :=
  (remote_send_shape (some WsReady.OPEN) (RemoteEvent.press "b")
    { itemId := "b", action := "down" } rfl).2.1

/-- C6: evaluation at the failing input a&b: the join link query reaches the
remote page intact, but main.jsx interpolates the decoded name into the
WebSocket URL without re-encoding, so the server-side decode of the ws query
receives a instead of a&b; the last conjunct records the literal ws URL the
client builds. -/
theorem layout_name_mangled_at_server :
    pageLayoutName (joinLinkQuery "a&b") = some "a&b" ∧
    layoutNameAtServer "a&b" = some "a" ∧
    some "a" ≠ (some "a&b" : Option String) ∧
    wsUrl "h" 1 "a&b" = "ws://h:8000/ws/1?layout=a&b" :=
  ⟨by decide, by decide, by decide, by decide⟩

/-- C7: for an item with no icon, an empty or absent default keybind renders
the text N/A in both the remote control view and the editor canvas, and a
non-empty default keybind renders the key identifier itself in both. -/
theorem button_content_default_fallback (it : Item) (hicon : it.icon = "") :
    ((it.keybinds "default" = none ∨ it.keybinds "default" = some "") →
      remoteButtonContent it = "N/A" ∧ editorButtonContent it = "N/A") ∧
    (∀ k, it.keybinds "default" = some k → ¬ k = "" →
      remoteButtonContent it = k ∧ editorButtonContent it = k) := by
  constructor
  · intro h
    cases h with
    | inl h =>
        constructor <;> simp [remoteButtonContent, editorButtonContent, hicon, h]
    | inr h =>
        constructor <;> simp [remoteButtonContent, editorButtonContent, hicon, h]
  · intro k hk hne
    constructor <;> simp [remoteButtonContent, editorButtonContent, hicon, hk, hne]

/-- C7 witness: a freshly added item has no icon and an empty default
keybind, and renders N/A in both views. -/
theorem button_content_default_fallback_witness :
    remoteButtonContent (newItem "b") = "N/A" ∧
    editorButtonContent (newItem "b") = "N/A" :=
  (button_content_default_fallback (newItem "b") rfl).1 (Or.inr rfl)

/-- C10: every DELETE request the editor issues names the current layout,
is never for the name Arrows, and only happens after confirmation; the
disabled attribute of the delete button holds exactly for the name Arrows;
and for the name Arrows no request is ever issued, confirmed or not. -/
theorem delete_request_never_arrows :
    (∀ n c r, editorDeleteRequest n c = some r →
      r = n ∧ ¬ n = "Arrows" ∧ c = true) ∧
    (∀ n, deleteButtonDisabled n = true ↔ n = "Arrows") ∧
    (∀ c, editorDeleteRequest "Arrows" c = none) := by
  refine ⟨?_, ?_, ?_⟩
  · intro n c r h
    unfold editorDeleteRequest at h
    split at h
    next hcond =>
      unfold deleteLayoutRequest at h
      split at h
      next hcf =>
        injection h with h2
        subst h2
        rw [Bool.and_eq_true] at hcond
        have hd : deleteButtonDisabled n = false := by
          cases hdd : deleteButtonDisabled n
          · rfl
          · have := hcond.2
            rw [hdd] at this
            simp at this
        have hna : ¬ n = "Arrows" := by
          intro he
          subst he
          simp [deleteButtonDisabled] at hd
        exact ⟨rfl, hna, hcf⟩
      next hcf => simp at h
    next hcond => simp at h
  · intro n
    unfold deleteButtonDisabled
    constructor
    · intro h
      exact beq_iff_eq.mp h
    · intro h
      subst h
      simp
  · intro c
    simp [editorDeleteRequest, deleteButtonShown, deleteButtonDisabled]

/-- C10 witness: the theorem applied to a confirmed delete of the layout L
and to the disabled-iff fact at the name Arrows. -/
theorem delete_request_never_arrows_witness :
    ¬ ("L" : String) = "Arrows" ∧ deleteButtonDisabled "Arrows" = true :=
  ⟨(delete_request_never_arrows.1 "L" true "L" (by decide)).2.1,
   (delete_request_never_arrows.2.1 "Arrows").mpr rfl⟩
